import Mathlib

/-!
# zkbnb service layer: cached block counts, price fetcher, swap amount

A shallow embedding of three call sites of the service layer:

* `repo.GetExecutedBlocksCount` / `repo.GetCommitedBlocksCount`
  (`service/rpc/globalRPC/internal/repo/block/block.go`),
* `price.getLatestQuotes` / `price.GetCurrencyPrice`
  (`service/api/app/internal/fetcher/price/fetcher.go`),
* `logic.GetSwapAmount`
  (`service/rpc/globalRPC/internal/logic/getswapamountlogic.go`).

Collaborators that live outside these files (the cache, the HTTP client, the
liquidity lookup, `ComputeDelta`, the parameter checks) are parameters of the
embedding.  A Go `error` is `Option Err` (`none` is `nil`), a Go pointer is an
`Option`, and a call that does not return to its caller is an `Outcome` other
than `ret`.
-/

/-! ## Shared data model -/

/-- A float64, carried as its IEEE-754 bit pattern; no arithmetic is done on
prices, they are only passed through. -/
structure F64 where
  bits : Nat
  deriving DecidableEq, Repr

/-- The float64 `0.0` (all bits clear). -/
def F64.zero : F64 := ⟨0⟩

/-- Go error values seen at the three call sites. -/
inductive Err where
  /-- The package-level error `errorcode.HttpErrFailToRequest`. -/
  | HttpErrFailToRequest
  /-- The package-level error `errorcode.HttpErrClientDo`. -/
  | HttpErrClientDo
  /-- The package-level error `errorcode.IoErrFailToRead`. -/
  | IoErrFailToRead
  /-- The package-level error `errorcode.JsonErrUnmarshal`. -/
  | JsonErrUnmarshal
  /-- The package-level error `errorcode.JsonErrMarshal`. -/
  | JsonErrMarshal
  /-- The package-level error `errcode.ErrInvalidParam`. -/
  | ErrInvalidParam
  /-- An error built by `errors.New(msg)`. -/
  | errorsNew (msg : String)
  /-- An error built by `zerror.New(code, msg)`. -/
  | zerrorNew (code : Int) (msg : String)
  /-- An error value produced by a collaborator (cache, store, lookup). -/
  | collaborator (id : Nat)
  deriving DecidableEq, Repr

/-- The dynamic content of a Go `interface{}` value. -/
inductive Value where
  /-- The nil interface. -/
  | nil
  /-- A value of dynamic type `int` (what an untyped integer constant becomes). -/
  | int (n : Int)
  /-- A value of dynamic type `int64`. -/
  | int64 (n : Int)
  /-- A value of dynamic type `float64`. -/
  | float64 (f : F64)
  /-- A value of dynamic type `string`. -/
  | string (s : String)
  deriving DecidableEq, Repr

/-- Whether the dynamic type of an interface value is `int64`: the test made by
the type assertion `result.(int64)`. -/
def Value.isInt64 : Value → Bool
  | .int64 _ => true
  | _ => false

/-- Ways a goroutine stops without returning. -/
inductive Abort where
  /-- A call of `log.Fatal(msg)`: the message is logged and the process exits with status 1. -/
  | logFatal (msg : String)
  /-- Run-time panic: nil pointer dereference. -/
  | nilDereference
  /-- Run-time panic: failed single-value type assertion. -/
  | interfaceConversion
  deriving DecidableEq, Repr

/-- The result of running a function body: it returns, or the run is cut short. -/
inductive Outcome (α : Type) where
  | ret (a : α)
  | abort (why : Abort)
  deriving DecidableEq, Repr

/-- An outcome surfaces an error to the caller when the function returns with a
non-nil error. -/
def Outcome.surfacesError {α : Type} : Outcome (α × Option Err) → Prop
  | .ret (_, some _) => True
  | _ => False

/-- An outcome aborts when control never comes back to the caller. -/
def Outcome.aborts {α : Type} : Outcome α → Prop
  | .abort _ => True
  | .ret _ => False

/-! ## Cached aggregate counts (block.go) -/

namespace repo

/-- The query helpers of `multcache` that can be handed to `GetWithSet`. -/
inductive QueryFunc where
  /-- The helper `multcache.SqlQueryCount`. -/
  | SqlQueryCount
  deriving DecidableEq, Repr

/-- The arguments of one `cache.GetWithSet(key, value, query, db, table, where, args...)` call. -/
structure GetWithSetCall where
  key : String
  value : Value
  query : QueryFunc
  db : Nat
  table : String
  whereClause : String
  args : List Int
  deriving DecidableEq, Repr

/-- The receiver `*block`: the table name, the database handle and the cache.
The cache (`multcache.MultCache`) is a collaborator: `GetWithSet` maps the call
to the `(result, err)` pair it returns. -/
structure block where
  table : String
  db : Nat
  GetWithSet : GetWithSetCall → Value × Option Err

/-- A run of an accessor: the cache calls it made, and how it ended. -/
structure Run where
  calls : List GetWithSetCall
  out : Outcome (Int × Option Err)

/-- Source function `GetExecutedBlocksCount`.  `StatusExecuted` is the block-status constant of
the package, declared outside `block.go`. -/
def GetExecutedBlocksCount (StatusExecuted : Int) (m : block) : Run :=
  let count : Int := 0
  let call : GetWithSetCall :=
    { key := "cache::block:executed_count", value := .int64 count,
      query := .SqlQueryCount, db := m.db, table := m.table,
      whereClause := "block_status = ? and deleted_at is NULL",
      args := [StatusExecuted] }
  match m.GetWithSet call with
  | (_, some err) => ⟨[call], .ret (0, some err)⟩
  | (result, none) =>
    match result with
    | .int64 count => ⟨[call], .ret (count, none)⟩
    | _ => ⟨[call], .abort (.logFatal "Error type!")⟩

/-- Source function `GetCommitedBlocksCount`.  `StatusCommitted` is the block-status constant of
the package, declared outside `block.go`. -/
def GetCommitedBlocksCount (StatusCommitted : Int) (m : block) : Run :=
  let count : Int := 0
  let call : GetWithSetCall :=
    { key := "cache::block:committed_count", value := .int64 count,
      query := .SqlQueryCount, db := m.db, table := m.table,
      whereClause := "block_status >= ? and deleted_at is NULL",
      args := [StatusCommitted] }
  match m.GetWithSet call with
  | (_, some err) => ⟨[call], .ret (0, some err)⟩
  | (result, none) =>
    match result with
    | .int64 count => ⟨[call], .ret (count, none)⟩
    | _ => ⟨[call], .abort (.logFatal "Error type!")⟩

/-- A cache whose every answer is the given pair; used to run the accessors on
concrete cache outcomes. -/
def constCache (result : Value) (err : Option Err) : block :=
  ⟨"block", 0, fun _ => (result, err)⟩

end repo

/-! ## Price fetcher (fetcher.go)

The HTTP client and the JSON text scanner are collaborators: the model starts
from the parsed document.  The decoders below follow `encoding/json` on the
three record types the fetcher uses: a repeated key keeps its last value, a
`null` leaves the target untouched (or nil, for a pointer), a value of the wrong
JSON kind is a decoding error.  Keys are compared exactly; `encoding/json` also
accepts keys that differ from the field name only by letter case.  Fields of the
three records that the fetcher never reads are not modelled.
-/

namespace price

/-- A JSON document as `encoding/json` sees it once the text is known to be
well formed.  Object members are kept in document order, duplicates included;
a number is the float64 its literal denotes. -/
inductive Json where
  | null
  | bool (b : Bool)
  | num (f : F64)
  | str (s : String)
  | arr (items : List Json)
  | obj (members : List (String × Json))

/-- The last binding of a key in an association list: the one `encoding/json`
keeps when a key is repeated, and the one a Go map holds after repeated stores. -/
def lookupLast {α : Type} (key : String) : List (String × α) → Option α
  | [] => none
  | (k, v) :: rest =>
    match lookupLast key rest with
    | some w => some w
    | none => if k = key then some v else none

/-- The members of a JSON object as a Go map holds them: one binding per key,
the last one of the document.  The bindings are listed in document order; Go
leaves the iteration order of a map unspecified. -/
def mapEntries {α : Type} : List (String × α) → List (String × α)
  | [] => []
  | (k, v) :: rest =>
    if rest.any (fun kv => kv.1 = k) then mapEntries rest else (k, v) :: mapEntries rest

/-- Modelled from the spec: the declaration of `Quote` is outside `fetcher.go`;
the only field the fetcher reads is `Price`, a float64 under the JSON key
`price`. -/
structure Quote where
  Price : F64
  deriving DecidableEq, Repr

/-- Modelled from the spec: the declaration of `QuoteLatest` is outside
`fetcher.go`; the fetcher reads `Symbol` (a string) and `Quote` (a map from
currency code to quote), under the JSON keys `symbol` and `quote`.  An element
of the map is `none` when it is a nil `*Quote`, which only arises when the map's
elements are declared as pointers. -/
structure QuoteLatest where
  Symbol : String
  Quote : List (String × Option Quote)
  deriving DecidableEq, Repr

/-- Modelled from the spec: the declaration of `currencyPrice` is outside
`fetcher.go`; the fetcher reads its `Data` field, of interface type, under the
JSON key `data`.  `none` is the nil interface. -/
structure currencyPrice where
  Data : Option Json

/-- Decoding `json.Unmarshal(body, &currencyPrice)` where the target is a
pointer to the `*currencyPrice` variable.  The outer `none` is a decoding
error; `some none` is the variable set to nil, which is what the literal `null`
does to a pointer; an object fills `Data` with the last `data` member, a `null`
member leaving it nil. -/
def unmarshalCurrencyPrice : Json → Option (Option currencyPrice)
  | .null => some none
  | .obj members =>
    match lookupLast "data" members with
    | none => some (some ⟨none⟩)
    | some .null => some (some ⟨none⟩)
    | some j => some (some ⟨some j⟩)
  | _ => none

/-- Decoding one element of the `Quote` map.  `ptr` tells whether the elements
are declared `*Quote` (then `null` gives a nil pointer) or `Quote` (then `null`
leaves the zero struct).  `none` is a decoding error. -/
def unmarshalQuote (ptr : Bool) : Json → Option (Option Quote)
  | .null => some (if ptr then none else some ⟨F64.zero⟩)
  | .obj members =>
    match lookupLast "price" members with
    | none => some (some ⟨F64.zero⟩)
    | some .null => some (some ⟨F64.zero⟩)
    | some (.num f) => some (some ⟨f⟩)
    | some _ => none
  | _ => none

/-- Decoding the members of the `quote` object one by one; `none` as soon as
one of them does not decode. -/
def unmarshalQuoteElems (ptr : Bool) :
    List (String × Json) → Option (List (String × Option Quote))
  | [] => some []
  | (k, j) :: rest =>
    match unmarshalQuote ptr j, unmarshalQuoteElems ptr rest with
    | some q, some qs => some ((k, q) :: qs)
    | _, _ => none

/-- Decoding the `Quote` field: `null` leaves the nil map, an object is decoded
member by member, anything else is a decoding error. -/
def unmarshalQuoteMap (ptr : Bool) : Json → Option (List (String × Option Quote))
  | .null => some []
  | .obj members => unmarshalQuoteElems ptr (mapEntries members)
  | _ => none

/-- Decoding the `Symbol` field: a string is stored, `null` or an absent key
leaves the empty string, anything else is a decoding error. -/
def unmarshalSymbol : Option Json → Option String
  | none => some ""
  | some .null => some ""
  | some (.str s) => some s
  | some _ => none

/-- Decoding `json.Unmarshal(b, quoteLatest)` with `quoteLatest` a fresh
`*QuoteLatest`: `null` leaves the zero struct, an object fills `Symbol` and
`Quote`, any other document is a decoding error (`none`). -/
def unmarshalQuoteLatest (ptr : Bool) : Json → Option QuoteLatest
  | .null => some ⟨"", []⟩
  | .obj members =>
    match unmarshalSymbol (lookupLast "symbol" members),
        (match lookupLast "quote" members with
          | none => some []
          | some j => unmarshalQuoteMap ptr j) with
    | some sym, some q => some ⟨sym, q⟩
    | _, _ => none
  | _ => none

/-- Encoding `json.Marshal(coinObj)` of a value that `encoding/json` itself
decoded into an `interface{}`: it always succeeds and gives the document back. -/
def marshal (coinObj : Json) : Option Json := some coinObj

/-- An HTTP request as built by `http.NewRequest` and `Header.Add`. -/
structure Request where
  method : String
  url : String
  header : List (String × String)
  deriving DecidableEq, Repr

/-- What reading the response body gives: an I/O error, or the bytes; the bytes
are `none` when they are not a well-formed JSON text. -/
inductive Body where
  | readError
  | bytes (doc : Option Json)

/-- What `client.Do` gives: an error, or a response with its body. -/
inductive Response where
  | doError
  | resp (body : Body)

/-- The network side of the fetcher: `validURL` tells whether `http.NewRequest`
accepts the URL, `Do` is the round trip of `http.Client`. -/
structure Upstream where
  validURL : String → Bool
  Do : Request → Response

/-- The receiver `*fetcher` without its cache handle. -/
structure fetcher where
  cmcUrl : String
  cmcToken : String

/-- The map `map[string]QuoteLatest`; the first binding of a key is the current one. -/
abbrev QuoteMap := List (String × QuoteLatest)

/-- The store `m[key] = v` on a Go map. -/
def QuoteMap.set (m : QuoteMap) (key : String) (v : QuoteLatest) : QuoteMap :=
  (key, v) :: m.filter (fun kv => kv.1 ≠ key)

/-- The lookup `v, ok := m[key]` on a Go map. -/
def QuoteMap.get (m : QuoteMap) (key : String) : Option QuoteLatest :=
  (m.find? (fun kv => kv.1 = key)).map (fun kv => kv.2)

/-- The body of the `for _, coinObj := range ...` loop of `getLatestQuotes`,
run over the entries still to visit with the map built so far. -/
def rangeCoins (ptr : Bool) :
    List (String × Json) → QuoteMap → Outcome (Option QuoteMap × Option Err)
  | [], quotesLatest => .ret (some quotesLatest, none)
  | (_, coinObj) :: rest, quotesLatest =>
    match marshal coinObj with
    | none => .ret (none, some .JsonErrMarshal)
    | some b =>
      match unmarshalQuoteLatest ptr b with
      | none => .ret (none, some .JsonErrUnmarshal)
      | some quoteLatest =>
        rangeCoins ptr rest (quotesLatest.set quoteLatest.Symbol quoteLatest)

/-- Source function `getLatestQuotes`. -/
def getLatestQuotes (w : Upstream) (ptr : Bool) (f : fetcher) (symbol : String) :
    Outcome (Option QuoteMap × Option Err) :=
  let url := f.cmcUrl ++ symbol
  if w.validURL url = false then .ret (none, some .HttpErrFailToRequest)
  else
    let reqest : Request :=
      ⟨"GET", url, [("X-CMC_PRO_API_KEY", f.cmcToken), ("Accept", "application/json")]⟩
    match w.Do reqest with
    | .doError => .ret (none, some .HttpErrClientDo)
    | .resp .readError => .ret (none, some .IoErrFailToRead)
    | .resp (.bytes none) => .ret (none, some .JsonErrUnmarshal)
    | .resp (.bytes (some doc)) =>
      match unmarshalCurrencyPrice doc with
      | none => .ret (none, some .JsonErrUnmarshal)
      | some none => .abort .nilDereference
      | some (some currencyPrice) =>
        match currencyPrice.Data with
        | none => .ret (none, some (.errorsNew "type conversion error"))
        | some ifcs =>
          match ifcs with
          | .obj members => rangeCoins ptr (mapEntries members) []
          | _ => .abort .interfaceConversion

/-- The closure `GetCurrencyPrice` hands to the cache as fallback. -/
def priceFallback (w : Upstream) (ptr : Bool) (f : fetcher) (symbol : String) :
    Outcome (Value × Option Err) :=
  match getLatestQuotes w ptr f symbol with
  | .abort why => .abort why
  | .ret (_, some err) => .ret (.int 0, some err)
  | .ret (quoteMap, none) =>
    match (quoteMap.getD []).get symbol with
    | none => .ret (.int 0, none)
    | some q =>
      match lookupLast "USD" q.Quote with
      | some (some usd) => .ret (.float64 usd.Price, none)
      | some none => .abort .nilDereference
      | none => if ptr then .abort .nilDereference else .ret (.float64 F64.zero, none)

/-- Source function `GetCurrencyPrice`.  The cache handle is a collaborator:
`GetPriceWithFallback` receives the symbol and the fallback closure. -/
def GetCurrencyPrice {ρ : Type}
    (GetPriceWithFallback : String → Outcome (Value × Option Err) → ρ)
    (w : Upstream) (ptr : Bool) (f : fetcher) (symbol : String) : ρ :=
  GetPriceWithFallback symbol (priceFallback w ptr f symbol)

/-- An upstream that accepts every URL and answers every request with the
given JSON document. -/
def answering (doc : Json) : Upstream :=
  ⟨fun _ => true, fun _ => .resp (.bytes (some doc))⟩

/-- The response shape of the spec for a symbol `s` and a price `p`: the entry
under `s` holds only its `quote`. -/
def specShape (s : String) (p : F64) : Json :=
  .obj [("data", .obj [(s, .obj [("quote", .obj [("USD", .obj [("price", .num p)])])])])]

/-- The response shape of the spec with the entry also carrying its own
`symbol` member, equal to the key it is filed under. -/
def symbolShape (s : String) (p : F64) : Json :=
  .obj [("data", .obj [(s, .obj [("symbol", .str s),
    ("quote", .obj [("USD", .obj [("price", .num p)])])])])]

/-- An upstream whose validation and round trip are fixed: every URL gets the
same verdict and every request the same response. -/
def fixed (urlOk : Bool) (r : Response) : Upstream :=
  ⟨fun _ => urlOk, fun _ => r⟩

/-- The float64 `42000.5`. -/
def price42000_5 : F64 := ⟨0x40E4821000000000⟩

end price

/-! ## Swap amount (getswapamountlogic.go) -/

namespace logic

/-- The conversion `uint32(x)` of an int64: the value modulo `2^32`. -/
def uint32 (x : Int) : Nat := (x % 2 ^ 32).toNat

/-- The conversion `int64(x)` of a uint32: the value is kept. -/
def int64 (x : Nat) : Int := Int.ofNat x

/-- The value of a decimal digit character, `none` for any other character. -/
def digit (c : Char) : Option Nat :=
  if '0' ≤ c ∧ c ≤ '9' then some (c.toNat - '0'.toNat) else none

/-- Reading a run of decimal digits that must reach the end of the input, with
the value read so far; `none` when a character is not a digit. -/
def scanDigits : List Char → Nat → Option Nat
  | [], acc => some acc
  | c :: rest, acc =>
    match digit c with
    | none => none
    | some d => scanDigits rest (10 * acc + d)

/-- The mantissa of `big.Int.SetString` in base 10: at least one digit, and
nothing but digits. -/
def scanMantissa : List Char → Option Nat
  | [] => none
  | cs => scanDigits cs 0

/-- The library call `new(big.Int).SetString(s, 10)`: an optional sign, then
decimal digits up to the end of the string.  `none` is the `false` flag. -/
def SetString (s : String) : Option Int :=
  match s.data with
  | '+' :: rest => (scanMantissa rest).map Int.ofNat
  | '-' :: rest => (scanMantissa rest).map (fun n => -Int.ofNat n)
  | cs => (scanMantissa cs).map Int.ofNat

/-- The method `(*big.Int).String()`: the decimal text, and the text of the nil
pointer for a nil receiver. -/
def bigString : Option Int → String
  | none => "<nil>"
  | some n => toString n

/-- The request `ReqGetSwapAmount`; `PairIndex` and `AssetId` are uint32. -/
structure ReqGetSwapAmount where
  PairIndex : Nat
  AssetId : Nat
  AssetAmount : String
  IsFrom : Bool
  deriving DecidableEq, Repr

/-- The response `RespGetSwapAmount`; `SwapAssetId` is uint32. -/
structure RespGetSwapAmount where
  SwapAssetAmount : String
  SwapAssetId : Nat
  deriving DecidableEq, Repr

/-- The fields of `LiquidityInfo` that `GetSwapAmount` reads: the two reserves
(`*big.Int`) and the int64 asset ids and fee rate. -/
structure LiquidityInfo where
  AssetA : Option Int
  AssetB : Option Int
  AssetAId : Int
  AssetBId : Int
  FeeRate : Int
  deriving DecidableEq, Repr

/-- The eight arguments of one `util.ComputeDelta` call, in order. -/
structure DeltaArgs where
  assetA : Option Int
  assetB : Option Int
  assetAId : Int
  assetBId : Int
  assetId : Int
  isFrom : Bool
  deltaAmount : Option Int
  feeRate : Int
  deriving DecidableEq, Repr

/-- The collaborators of `GetSwapAmount`, all declared outside the file: the
two parameter checks (`true` flags the input), the liquidity lookup (an error,
or the liquidity it found) and `ComputeDelta`, which returns an amount, an
asset id and an error. -/
structure Deps where
  CheckPairIndex : Nat → Bool
  CheckAmount : String → Bool
  GetLatestLiquidityInfoForRead : Int → Except Err LiquidityInfo
  ComputeDelta : DeltaArgs → Option Int × Int × Option Err

/-- A call made on a collaborator. -/
inductive Call where
  | lookup (pairIndex : Int)
  | computeDelta (args : DeltaArgs)
  deriving DecidableEq, Repr

/-- A run of `GetSwapAmount`: the calls it made in order, and the pair it
returned. -/
structure Run where
  calls : List Call
  resp : Option RespGetSwapAmount
  err : Option Err
  deriving DecidableEq, Repr

/-- Source function `GetSwapAmount`. -/
def GetSwapAmount (l : Deps) (inp : ReqGetSwapAmount) : Run :=
  if l.CheckPairIndex inp.PairIndex then ⟨[], none, some .ErrInvalidParam⟩
  else if l.CheckAmount inp.AssetAmount then ⟨[], none, some .ErrInvalidParam⟩
  else
    let c1 := Call.lookup (int64 inp.PairIndex)
    match l.GetLatestLiquidityInfoForRead (int64 inp.PairIndex) with
    | .error err => ⟨[c1], none, some err⟩
    | .ok liquidity =>
      if liquidity.AssetA = none ∨ liquidity.AssetA = some 0 ∨
          liquidity.AssetB = none ∨ liquidity.AssetB = some 0 then
        ⟨[c1], none, some (.zerrorNew (-1) "[sendSwapTx] invalid params")⟩
      else
        match SetString inp.AssetAmount with
        | none => ⟨[c1], none, some .ErrInvalidParam⟩
        | some deltaAmount =>
          if uint32 liquidity.AssetAId = inp.AssetId then
            let args : DeltaArgs :=
              ⟨liquidity.AssetA, liquidity.AssetB,
                liquidity.AssetAId, liquidity.AssetBId,
                int64 inp.AssetId, inp.IsFrom, some deltaAmount, liquidity.FeeRate⟩
            match l.ComputeDelta args with
            | (assetAmount, toAssetId, _) =>
              ⟨[c1, .computeDelta args],
                some ⟨bigString assetAmount, uint32 toAssetId⟩, none⟩
          else if uint32 liquidity.AssetBId = inp.AssetId then
            let args : DeltaArgs :=
              ⟨liquidity.AssetA, liquidity.AssetB,
                liquidity.AssetAId, liquidity.AssetBId,
                int64 inp.AssetId, inp.IsFrom, some deltaAmount, liquidity.FeeRate⟩
            match l.ComputeDelta args with
            | (assetAmount, toAssetId, _) =>
              ⟨[c1, .computeDelta args],
                some ⟨bigString assetAmount, uint32 toAssetId⟩, none⟩
          else
            ⟨[c1], some ⟨"", 0⟩, some (.zerrorNew (-1) "invalid pair assetIds")⟩

/-- Collaborators for concrete runs: no check flags the input, every pair has
the given liquidity, and `ComputeDelta` is the given function. -/
def depsWith (liquidity : LiquidityInfo)
    (ComputeDelta : DeltaArgs → Option Int × Int × Option Err) : Deps :=
  ⟨fun _ => false, fun _ => false, fun _ => .ok liquidity, ComputeDelta⟩

/-- A pool of assets 1 and 2 with reserves 1000 and 2000 and fee rate 30. -/
def pool12 : LiquidityInfo := ⟨some 1000, some 2000, 1, 2, 30⟩

end logic

/-! ## Theorems -/

/-! ### Cached aggregate counts -/

/-- C1 (as stated, refuted): when the cache answers without error with a value
whose dynamic type is `string`, neither accessor surfaces an error; both end in
`log.Fatal`, which stops the process. -/
theorem blocksCount_type_mismatch_fatal :
    ¬ (repo.GetExecutedBlocksCount 2 (repo.constCache (.string "17") none)).out.surfacesError ∧
    (repo.GetExecutedBlocksCount 2 (repo.constCache (.string "17") none)).out.aborts ∧
    ¬ (repo.GetCommitedBlocksCount 1 (repo.constCache (.string "17") none)).out.surfacesError ∧
    (repo.GetCommitedBlocksCount 1 (repo.constCache (.string "17") none)).out.aborts := by
  simp [repo.GetExecutedBlocksCount, repo.GetCommitedBlocksCount, repo.constCache,
    Outcome.surfacesError, Outcome.aborts]

/-- C1 (amended): for every result that the cache returns with a nil error and
whose dynamic type is not `int64`, `GetExecutedBlocksCount` and
`GetCommitedBlocksCount` do not return: they end in `log.Fatal("Error type!")`. -/
theorem blocksCount_non_int64_logFatal (StatusExecuted StatusCommitted : Int)
    (m : repo.block) (v : Value) (hv : v.isInt64 = false) :
    (m.GetWithSet ⟨"cache::block:executed_count", .int64 0, .SqlQueryCount, m.db, m.table,
        "block_status = ? and deleted_at is NULL", [StatusExecuted]⟩ = (v, none) →
      (repo.GetExecutedBlocksCount StatusExecuted m).out = .abort (.logFatal "Error type!")) ∧
    (m.GetWithSet ⟨"cache::block:committed_count", .int64 0, .SqlQueryCount, m.db, m.table,
        "block_status >= ? and deleted_at is NULL", [StatusCommitted]⟩ = (v, none) →
      (repo.GetCommitedBlocksCount StatusCommitted m).out = .abort (.logFatal "Error type!")) := by
  constructor
  · intro h
    cases v <;> simp_all [repo.GetExecutedBlocksCount, Value.isInt64]
  · intro h
    cases v <;> simp_all [repo.GetCommitedBlocksCount, Value.isInt64]

/-- C1 (amended), run on a cache that answers the nil interface without error. -/
theorem blocksCount_non_int64_logFatal_witness :
    (repo.GetExecutedBlocksCount 2 (repo.constCache .nil none)).out
        = .abort (.logFatal "Error type!") ∧
    (repo.GetCommitedBlocksCount 1 (repo.constCache .nil none)).out
        = .abort (.logFatal "Error type!") :=
  ⟨(blocksCount_non_int64_logFatal 2 1 (repo.constCache .nil none) .nil rfl).1 rfl,
   (blocksCount_non_int64_logFatal 2 1 (repo.constCache .nil none) .nil rfl).2 rfl⟩

/-- C6: both accessors pass the cache outcome through: an error `e` from
`GetWithSet` comes back as `(0, e)`, an `int64` value `v` with a nil error comes
back as `(v, nil)`. -/
theorem blocksCount_passthrough (StatusExecuted StatusCommitted : Int)
    (m : repo.block) (r : Value) (e : Err) (v : Int) :
    (m.GetWithSet ⟨"cache::block:executed_count", .int64 0, .SqlQueryCount, m.db, m.table,
        "block_status = ? and deleted_at is NULL", [StatusExecuted]⟩ = (r, some e) →
      (repo.GetExecutedBlocksCount StatusExecuted m).out = .ret (0, some e)) ∧
    (m.GetWithSet ⟨"cache::block:executed_count", .int64 0, .SqlQueryCount, m.db, m.table,
        "block_status = ? and deleted_at is NULL", [StatusExecuted]⟩ = (.int64 v, none) →
      (repo.GetExecutedBlocksCount StatusExecuted m).out = .ret (v, none)) ∧
    (m.GetWithSet ⟨"cache::block:committed_count", .int64 0, .SqlQueryCount, m.db, m.table,
        "block_status >= ? and deleted_at is NULL", [StatusCommitted]⟩ = (r, some e) →
      (repo.GetCommitedBlocksCount StatusCommitted m).out = .ret (0, some e)) ∧
    (m.GetWithSet ⟨"cache::block:committed_count", .int64 0, .SqlQueryCount, m.db, m.table,
        "block_status >= ? and deleted_at is NULL", [StatusCommitted]⟩ = (.int64 v, none) →
      (repo.GetCommitedBlocksCount StatusCommitted m).out = .ret (v, none)) := by
  refine ⟨?_, ?_, ?_, ?_⟩ <;> intro h <;>
    simp [repo.GetExecutedBlocksCount, repo.GetCommitedBlocksCount, h]

/-- C6, run on a cache that fails with a store error and on one that holds 17. -/
theorem blocksCount_passthrough_witness :
    (repo.GetExecutedBlocksCount 2 (repo.constCache (.string "x") (some (.collaborator 7)))).out
        = .ret (0, some (.collaborator 7)) ∧
    (repo.GetExecutedBlocksCount 2 (repo.constCache (.int64 17) none)).out = .ret (17, none) ∧
    (repo.GetCommitedBlocksCount 1 (repo.constCache (.string "x") (some (.collaborator 7)))).out
        = .ret (0, some (.collaborator 7)) ∧
    (repo.GetCommitedBlocksCount 1 (repo.constCache (.int64 17) none)).out = .ret (17, none) :=
  ⟨(blocksCount_passthrough 2 1 (repo.constCache (.string "x") (some (.collaborator 7)))
      (.string "x") (.collaborator 7) 0).1 rfl,
   (blocksCount_passthrough 2 1 (repo.constCache (.int64 17) none) .nil .JsonErrMarshal 17).2.1 rfl,
   (blocksCount_passthrough 2 1 (repo.constCache (.string "x") (some (.collaborator 7)))
      (.string "x") (.collaborator 7) 0).2.2.1 rfl,
   (blocksCount_passthrough 2 1 (repo.constCache (.int64 17) none) .nil .JsonErrMarshal 17).2.2.2 rfl⟩

/-- C8: whatever the receiver and the cache state, `GetExecutedBlocksCount`
makes exactly one cache call, under the key `cache::block:executed_count` with
the filter `block_status = ?` bound to `StatusExecuted`, and
`GetCommitedBlocksCount` makes exactly one, under the key
`cache::block:committed_count` with the filter `block_status >= ?` bound to
`StatusCommitted`; the two keys differ. -/
theorem blocksCount_cache_keys (StatusExecuted StatusCommitted : Int) (m : repo.block) :
    (repo.GetExecutedBlocksCount StatusExecuted m).calls =
      [⟨"cache::block:executed_count", .int64 0, .SqlQueryCount, m.db, m.table,
        "block_status = ? and deleted_at is NULL", [StatusExecuted]⟩] ∧
    (repo.GetCommitedBlocksCount StatusCommitted m).calls =
      [⟨"cache::block:committed_count", .int64 0, .SqlQueryCount, m.db, m.table,
        "block_status >= ? and deleted_at is NULL", [StatusCommitted]⟩] ∧
    (∀ c ∈ (repo.GetExecutedBlocksCount StatusExecuted m).calls,
      ∀ c2 ∈ (repo.GetCommitedBlocksCount StatusCommitted m).calls, c.key ≠ c2.key) := by
  have h1 : (repo.GetExecutedBlocksCount StatusExecuted m).calls =
      [⟨"cache::block:executed_count", .int64 0, .SqlQueryCount, m.db, m.table,
        "block_status = ? and deleted_at is NULL", [StatusExecuted]⟩] := by
    unfold repo.GetExecutedBlocksCount
    simp only []
    split
    · rfl
    · split <;> rfl
  have h2 : (repo.GetCommitedBlocksCount StatusCommitted m).calls =
      [⟨"cache::block:committed_count", .int64 0, .SqlQueryCount, m.db, m.table,
        "block_status >= ? and deleted_at is NULL", [StatusCommitted]⟩] := by
    unfold repo.GetCommitedBlocksCount
    simp only []
    split
    · rfl
    · split <;> rfl
  refine ⟨h1, h2, ?_⟩
  rw [h1, h2]
  intro c hc c2 hc2
  simp only [List.mem_singleton] at hc hc2
  subst hc hc2
  show "cache::block:executed_count" ≠ "cache::block:committed_count"
  decide

/-! ### Price fetcher -/

/-- Helper: once an entry still to visit does not decode, the loop ends with a
nil map and `JsonErrUnmarshal`, whatever map was built so far. -/
theorem rangeCoins_of_bad_entry (ptr : Bool) (entries : List (String × price.Json))
    (acc : price.QuoteMap)
    (h : ∃ kv ∈ entries, price.unmarshalQuoteLatest ptr kv.2 = none) :
    price.rangeCoins ptr entries acc = .ret (none, some .JsonErrUnmarshal) := by
  induction entries generalizing acc with
  | nil => simp at h
  | cons hd tl ih =>
    obtain ⟨k, j⟩ := hd
    cases hq : price.unmarshalQuoteLatest ptr j with
    | none => simp [price.rangeCoins, price.marshal, hq]
    | some q =>
      have htl : ∃ kv ∈ tl, price.unmarshalQuoteLatest ptr kv.2 = none := by
        obtain ⟨kv, hmem, hkv⟩ := h
        rcases List.mem_cons.mp hmem with rfl | hmem
        · simp [hq] at hkv
        · exact ⟨kv, hmem, hkv⟩
      simp [price.rangeCoins, price.marshal, hq, ih _ htl]

/-- C2 (as stated, refuted): on the body
`{data: {BTC: {quote: {USD: {price: 42000.5}}}}}` the map returned by
`getLatestQuotes` files the entry under the empty symbol, has no binding for
`BTC`, and the fallback returns the integer 0 with a nil error instead of
`(42000.5, nil)`; this holds whether the quote map holds values or pointers. -/
theorem getLatestQuotes_specShape_unbound :
    price.getLatestQuotes (price.answering (price.specShape "BTC" price.price42000_5)) false
        ⟨"https://quotes/?symbol=", "token"⟩ "BTC"
      = .ret (some [("", ⟨"", [("USD", some ⟨price.price42000_5⟩)]⟩)], none) ∧
    price.QuoteMap.get [("", ⟨"", [("USD", some ⟨price.price42000_5⟩)]⟩)] "BTC" = none ∧
    price.priceFallback (price.answering (price.specShape "BTC" price.price42000_5)) false
        ⟨"https://quotes/?symbol=", "token"⟩ "BTC" = .ret (.int 0, none) ∧
    price.priceFallback (price.answering (price.specShape "BTC" price.price42000_5)) true
        ⟨"https://quotes/?symbol=", "token"⟩ "BTC" = .ret (.int 0, none) ∧
    price.priceFallback (price.answering (price.specShape "BTC" price.price42000_5)) false
        ⟨"https://quotes/?symbol=", "token"⟩ "BTC" ≠ .ret (.float64 price.price42000_5, none) := by
  decide

/-- C2 (amended): for every symbol `s` and price `p`, when the upstream accepts
the request and the body is `{data: {s: {symbol: s, quote: {USD: {price: p}}}}}`
(the entry names its own symbol), `getLatestQuotes` returns a map that binds `s`
to that entry and the fallback handed to the cache returns `(p, nil)`. -/
theorem getLatestQuotes_symbolShape (w : price.Upstream) (ptr : Bool) (f : price.fetcher)
    (s : String) (p : F64)
    (hurl : w.validURL (f.cmcUrl ++ s) = true)
    (hdo : w.Do ⟨"GET", f.cmcUrl ++ s,
        [("X-CMC_PRO_API_KEY", f.cmcToken), ("Accept", "application/json")]⟩
      = .resp (.bytes (some (price.symbolShape s p)))) :
    price.getLatestQuotes w ptr f s = .ret (some [(s, ⟨s, [("USD", some ⟨p⟩)]⟩)], none) ∧
    price.QuoteMap.get [(s, ⟨s, [("USD", some ⟨p⟩)]⟩)] s = some ⟨s, [("USD", some ⟨p⟩)]⟩ ∧
    price.priceFallback w ptr f s = .ret (.float64 p, none) ∧
    (∀ cache : String → Outcome (Value × Option Err) → Outcome (F64 × Option Err),
      price.GetCurrencyPrice cache w ptr f s = cache s (.ret (.float64 p, none))) := by
  have hq : price.unmarshalQuoteLatest ptr
      (.obj [("symbol", .str s), ("quote", .obj [("USD", .obj [("price", .num p)])])])
      = some ⟨s, [("USD", some ⟨p⟩)]⟩ := by
    simp [price.unmarshalQuoteLatest, price.lookupLast, price.unmarshalSymbol,
      price.unmarshalQuoteMap, price.mapEntries, price.unmarshalQuoteElems,
      price.unmarshalQuote]
  have hg : price.getLatestQuotes w ptr f s
      = .ret (some [(s, ⟨s, [("USD", some ⟨p⟩)]⟩)], none) := by
    simp [price.getLatestQuotes, hurl, hdo, price.symbolShape, price.unmarshalCurrencyPrice,
      price.lookupLast, price.mapEntries, price.rangeCoins, price.marshal, hq,
      price.QuoteMap.set]
  have hf : price.priceFallback w ptr f s = .ret (.float64 p, none) := by
    simp [price.priceFallback, hg, price.QuoteMap.get, price.lookupLast]
  refine ⟨hg, ?_, hf, ?_⟩
  · simp [price.QuoteMap.get]
  · intro cache
    simp [price.GetCurrencyPrice, hf]

/-- C2 (amended), run for `BTC` at 42000.5. -/
theorem getLatestQuotes_symbolShape_witness :
    price.getLatestQuotes (price.answering (price.symbolShape "BTC" price.price42000_5)) true
        ⟨"https://quotes/?symbol=", "token"⟩ "BTC"
      = .ret (some [("BTC", ⟨"BTC", [("USD", some ⟨price.price42000_5⟩)]⟩)], none) ∧
    price.QuoteMap.get [("BTC", ⟨"BTC", [("USD", some ⟨price.price42000_5⟩)]⟩)] "BTC"
      = some ⟨"BTC", [("USD", some ⟨price.price42000_5⟩)]⟩ ∧
    price.priceFallback (price.answering (price.symbolShape "BTC" price.price42000_5)) true
        ⟨"https://quotes/?symbol=", "token"⟩ "BTC"
      = .ret (.float64 price.price42000_5, none) ∧
    (∀ cache : String → Outcome (Value × Option Err) → Outcome (F64 × Option Err),
      price.GetCurrencyPrice cache
          (price.answering (price.symbolShape "BTC" price.price42000_5)) true
          ⟨"https://quotes/?symbol=", "token"⟩ "BTC"
        = cache "BTC" (.ret (.float64 price.price42000_5, none))) :=
  getLatestQuotes_symbolShape (price.answering (price.symbolShape "BTC" price.price42000_5)) true
    ⟨"https://quotes/?symbol=", "token"⟩ "BTC" price.price42000_5 rfl rfl

/-- C3 (the code at the failing input): with a body whose `data` object is
empty, `getLatestQuotes` returns an empty map without error, the symbol `BTC`
has no entry, and the fallback returns a nil error together with a value of
dynamic type `int` (the untyped constant 0), which is not the float64 `0.0`. -/
theorem priceFallback_absent_symbol_int_zero :
    price.getLatestQuotes (price.answering (.obj [("data", .obj [])])) false
        ⟨"https://quotes/?symbol=", "token"⟩ "BTC" = .ret (some [], none) ∧
    price.QuoteMap.get [] "BTC" = none ∧
    price.priceFallback (price.answering (.obj [("data", .obj [])])) false
        ⟨"https://quotes/?symbol=", "token"⟩ "BTC" = .ret (.int 0, none) ∧
    price.priceFallback (price.answering (.obj [("data", .obj [])])) true
        ⟨"https://quotes/?symbol=", "token"⟩ "BTC" = .ret (.int 0, none) ∧
    (Value.int 0).isInt64 = false ∧
    Value.int 0 ≠ Value.float64 F64.zero := by
  decide

/-- C4 (the code at the failing inputs): when the body is valid JSON whose
`data` member is an array, a string or a number, `getLatestQuotes` does not
return an error: the type assertion to a map panics.  The body `null` ends in a
nil-pointer panic. -/
theorem getLatestQuotes_data_not_object_panics :
    price.getLatestQuotes (price.answering (.obj [("data", .arr [])])) false
        ⟨"https://quotes/?symbol=", "token"⟩ "BTC" = .abort .interfaceConversion ∧
    price.getLatestQuotes (price.answering (.obj [("data", .str "BTC")])) false
        ⟨"https://quotes/?symbol=", "token"⟩ "BTC" = .abort .interfaceConversion ∧
    price.getLatestQuotes (price.answering (.obj [("data", .num price.price42000_5)])) false
        ⟨"https://quotes/?symbol=", "token"⟩ "BTC" = .abort .interfaceConversion ∧
    price.getLatestQuotes (price.answering .null) false
        ⟨"https://quotes/?symbol=", "token"⟩ "BTC" = .abort .nilDereference ∧
    ¬ (price.getLatestQuotes (price.answering (.obj [("data", .arr [])])) false
        ⟨"https://quotes/?symbol=", "token"⟩ "BTC").surfacesError :=
  ⟨rfl, rfl, rfl, rfl, fun h => h⟩

/-- C5: each failing stage of `getLatestQuotes` gives a nil map and the error
of that stage: a rejected URL gives `HttpErrFailToRequest`; a failed round trip
gives `HttpErrClientDo`; a failed body read gives `IoErrFailToRead`; a body that
is not JSON or does not decode gives `JsonErrUnmarshal`; an entry of the `data`
object that does not decode gives `JsonErrUnmarshal`.  Whenever
`getLatestQuotes` returns an error, the fallback of `GetCurrencyPrice` returns
that same error, so never a nil one. -/
theorem getLatestQuotes_stage_errors (w : price.Upstream) (ptr : Bool) (f : price.fetcher)
    (symbol : String) (doc : price.Json) (members : List (String × price.Json))
    (m : Option price.QuoteMap) (e : Err) :
    (w.validURL (f.cmcUrl ++ symbol) = false →
      price.getLatestQuotes w ptr f symbol = .ret (none, some .HttpErrFailToRequest)) ∧
    (w.validURL (f.cmcUrl ++ symbol) = true →
      w.Do ⟨"GET", f.cmcUrl ++ symbol,
        [("X-CMC_PRO_API_KEY", f.cmcToken), ("Accept", "application/json")]⟩ = .doError →
      price.getLatestQuotes w ptr f symbol = .ret (none, some .HttpErrClientDo)) ∧
    (w.validURL (f.cmcUrl ++ symbol) = true →
      w.Do ⟨"GET", f.cmcUrl ++ symbol,
        [("X-CMC_PRO_API_KEY", f.cmcToken), ("Accept", "application/json")]⟩
        = .resp .readError →
      price.getLatestQuotes w ptr f symbol = .ret (none, some .IoErrFailToRead)) ∧
    (w.validURL (f.cmcUrl ++ symbol) = true →
      w.Do ⟨"GET", f.cmcUrl ++ symbol,
        [("X-CMC_PRO_API_KEY", f.cmcToken), ("Accept", "application/json")]⟩
        = .resp (.bytes none) →
      price.getLatestQuotes w ptr f symbol = .ret (none, some .JsonErrUnmarshal)) ∧
    (w.validURL (f.cmcUrl ++ symbol) = true →
      w.Do ⟨"GET", f.cmcUrl ++ symbol,
        [("X-CMC_PRO_API_KEY", f.cmcToken), ("Accept", "application/json")]⟩
        = .resp (.bytes (some doc)) →
      price.unmarshalCurrencyPrice doc = none →
      price.getLatestQuotes w ptr f symbol = .ret (none, some .JsonErrUnmarshal)) ∧
    (w.validURL (f.cmcUrl ++ symbol) = true →
      w.Do ⟨"GET", f.cmcUrl ++ symbol,
        [("X-CMC_PRO_API_KEY", f.cmcToken), ("Accept", "application/json")]⟩
        = .resp (.bytes (some doc)) →
      price.unmarshalCurrencyPrice doc = some (some ⟨some (.obj members)⟩) →
      (∃ kv ∈ price.mapEntries members, price.unmarshalQuoteLatest ptr kv.2 = none) →
      price.getLatestQuotes w ptr f symbol = .ret (none, some .JsonErrUnmarshal)) ∧
    (price.getLatestQuotes w ptr f symbol = .ret (m, some e) →
      price.priceFallback w ptr f symbol = .ret (.int 0, some e)) := by
  refine ⟨?_, ?_, ?_, ?_, ?_, ?_, ?_⟩
  · intro h
    simp [price.getLatestQuotes, h]
  · intro h hdo
    simp [price.getLatestQuotes, h, hdo]
  · intro h hdo
    simp [price.getLatestQuotes, h, hdo]
  · intro h hdo
    simp [price.getLatestQuotes, h, hdo]
  · intro h hdo hdec
    simp [price.getLatestQuotes, h, hdo, hdec]
  · intro h hdo hdec hbad
    simp [price.getLatestQuotes, h, hdo, hdec, rangeCoins_of_bad_entry ptr _ [] hbad]
  · intro h
    simp [price.priceFallback, h]

/-- C5, run on one upstream per failing stage: a rejected URL, a failed round
trip, a failed read, bytes that are not JSON, a body that is a JSON array, and
a `data` object whose entry `BTC` is a number. -/
theorem getLatestQuotes_stage_errors_witness :
    price.getLatestQuotes (price.fixed false .doError) false ⟨"u", "t"⟩ "BTC"
      = .ret (none, some .HttpErrFailToRequest) ∧
    price.getLatestQuotes (price.fixed true .doError) false ⟨"u", "t"⟩ "BTC"
      = .ret (none, some .HttpErrClientDo) ∧
    price.getLatestQuotes (price.fixed true (.resp .readError)) false ⟨"u", "t"⟩ "BTC"
      = .ret (none, some .IoErrFailToRead) ∧
    price.getLatestQuotes (price.fixed true (.resp (.bytes none))) false ⟨"u", "t"⟩ "BTC"
      = .ret (none, some .JsonErrUnmarshal) ∧
    price.getLatestQuotes (price.answering (.arr [])) false ⟨"u", "t"⟩ "BTC"
      = .ret (none, some .JsonErrUnmarshal) ∧
    price.getLatestQuotes
        (price.answering (.obj [("data", .obj [("BTC", .num price.price42000_5)])]))
        false ⟨"u", "t"⟩ "BTC"
      = .ret (none, some .JsonErrUnmarshal) ∧
    price.priceFallback (price.fixed true .doError) false ⟨"u", "t"⟩ "BTC"
      = .ret (.int 0, some .HttpErrClientDo) :=
  ⟨(getLatestQuotes_stage_errors (price.fixed false .doError) false ⟨"u", "t"⟩ "BTC"
      .null [] none .HttpErrClientDo).1 rfl,
   (getLatestQuotes_stage_errors (price.fixed true .doError) false ⟨"u", "t"⟩ "BTC"
      .null [] none .HttpErrClientDo).2.1 rfl rfl,
   (getLatestQuotes_stage_errors (price.fixed true (.resp .readError)) false ⟨"u", "t"⟩ "BTC"
      .null [] none .HttpErrClientDo).2.2.1 rfl rfl,
   (getLatestQuotes_stage_errors (price.fixed true (.resp (.bytes none))) false ⟨"u", "t"⟩ "BTC"
      .null [] none .HttpErrClientDo).2.2.2.1 rfl rfl,
   (getLatestQuotes_stage_errors (price.answering (.arr [])) false ⟨"u", "t"⟩ "BTC"
      (.arr []) [] none .HttpErrClientDo).2.2.2.2.1 rfl rfl rfl,
   (getLatestQuotes_stage_errors
      (price.answering (.obj [("data", .obj [("BTC", .num price.price42000_5)])]))
      false ⟨"u", "t"⟩ "BTC"
      (.obj [("data", .obj [("BTC", .num price.price42000_5)])])
      [("BTC", .num price.price42000_5)] none .HttpErrClientDo).2.2.2.2.2.1 rfl rfl rfl
      ⟨("BTC", .num price.price42000_5), List.Mem.head _, rfl⟩,
   (getLatestQuotes_stage_errors (price.fixed true .doError) false ⟨"u", "t"⟩ "BTC"
      .null [] none .HttpErrClientDo).2.2.2.2.2.2 rfl⟩

/-! ### Swap amount -/

/-- C9: for every request that passes both checks, whose liquidity lookup
succeeds with both reserves non-nil and non-zero, whose amount parses in base 10
and whose asset id is one of the pair, `GetSwapAmount` calls `ComputeDelta` once
with the same eight arguments in either branch and returns a nil error, with
the amount and asset id `ComputeDelta` returned put in the response; the error
`ComputeDelta` returned plays no part. -/
theorem getSwapAmount_ignores_computeDelta_error (l : logic.Deps)
    (inp : logic.ReqGetSwapAmount) (liquidity : logic.LiquidityInfo) (deltaAmount : Int)
    (hpair : l.CheckPairIndex inp.PairIndex = false)
    (hamount : l.CheckAmount inp.AssetAmount = false)
    (hlookup : l.GetLatestLiquidityInfoForRead (logic.int64 inp.PairIndex) = .ok liquidity)
    (hA : liquidity.AssetA ≠ none ∧ liquidity.AssetA ≠ some 0)
    (hB : liquidity.AssetB ≠ none ∧ liquidity.AssetB ≠ some 0)
    (hparse : logic.SetString inp.AssetAmount = some deltaAmount)
    (hid : logic.uint32 liquidity.AssetAId = inp.AssetId ∨
      logic.uint32 liquidity.AssetBId = inp.AssetId) :
    logic.GetSwapAmount l inp =
      ⟨[.lookup (logic.int64 inp.PairIndex),
        .computeDelta ⟨liquidity.AssetA, liquidity.AssetB, liquidity.AssetAId,
          liquidity.AssetBId, logic.int64 inp.AssetId, inp.IsFrom, some deltaAmount,
          liquidity.FeeRate⟩],
       some ⟨logic.bigString (l.ComputeDelta ⟨liquidity.AssetA, liquidity.AssetB,
          liquidity.AssetAId, liquidity.AssetBId, logic.int64 inp.AssetId, inp.IsFrom,
          some deltaAmount, liquidity.FeeRate⟩).1,
        logic.uint32 (l.ComputeDelta ⟨liquidity.AssetA, liquidity.AssetB,
          liquidity.AssetAId, liquidity.AssetBId, logic.int64 inp.AssetId, inp.IsFrom,
          some deltaAmount, liquidity.FeeRate⟩).2.1⟩,
       none⟩ := by
  have hres : ¬ (liquidity.AssetA = none ∨ liquidity.AssetA = some 0 ∨
      liquidity.AssetB = none ∨ liquidity.AssetB = some 0) := by
    rintro (h | h | h | h)
    · exact hA.1 h
    · exact hA.2 h
    · exact hB.1 h
    · exact hB.2 h
  unfold logic.GetSwapAmount
  simp only [hpair, hamount, hlookup, hparse, if_neg hres, Bool.false_eq_true, if_false]
  by_cases h1 : logic.uint32 liquidity.AssetAId = inp.AssetId
  · simp only [h1, if_true]
  · have h2 : logic.uint32 liquidity.AssetBId = inp.AssetId := hid.resolve_left h1
    simp only [h1, h2, if_true, if_false]

/-- C9, run on a pool of assets 1 and 2 where `ComputeDelta` returns a nil
amount, asset id 2 and a non-nil error: the response still comes with a nil
error. -/
theorem getSwapAmount_ignores_computeDelta_error_witness :
    logic.GetSwapAmount
        (logic.depsWith logic.pool12 (fun _ => (none, 2, some (.errorsNew "invalid"))))
        ⟨0, 1, "100", true⟩ =
      ⟨[.lookup 0, .computeDelta ⟨some 1000, some 2000, 1, 2, 1, true, some 100, 30⟩],
       some ⟨"<nil>", 2⟩, none⟩ :=
  getSwapAmount_ignores_computeDelta_error
    (logic.depsWith logic.pool12 (fun _ => (none, 2, some (.errorsNew "invalid"))))
    ⟨0, 1, "100", true⟩ logic.pool12 100 rfl rfl rfl (by decide) (by decide) (by decide)
    (by decide)

/-- C10: for every request, if a check flags the input, or the liquidity lookup
fails, or a reserve is nil or zero, or the amount does not parse in base 10, or
the asset id is neither of the pair, then `GetSwapAmount` returns a non-nil
error and makes no `ComputeDelta` call; when a check flags the input it makes no
call at all, so no liquidity lookup either. -/
theorem getSwapAmount_guards (l : logic.Deps) (inp : logic.ReqGetSwapAmount)
    (h : l.CheckPairIndex inp.PairIndex = true ∨ l.CheckAmount inp.AssetAmount = true ∨
      (∃ e, l.GetLatestLiquidityInfoForRead (logic.int64 inp.PairIndex) = .error e) ∨
      (∃ liquidity, l.GetLatestLiquidityInfoForRead (logic.int64 inp.PairIndex) = .ok liquidity ∧
        (liquidity.AssetA = none ∨ liquidity.AssetA = some 0 ∨
          liquidity.AssetB = none ∨ liquidity.AssetB = some 0)) ∨
      logic.SetString inp.AssetAmount = none ∨
      (∃ liquidity, l.GetLatestLiquidityInfoForRead (logic.int64 inp.PairIndex) = .ok liquidity ∧
        logic.uint32 liquidity.AssetAId ≠ inp.AssetId ∧
        logic.uint32 liquidity.AssetBId ≠ inp.AssetId)) :
    (logic.GetSwapAmount l inp).err ≠ none ∧
    (∀ args, logic.Call.computeDelta args ∉ (logic.GetSwapAmount l inp).calls) ∧
    (l.CheckPairIndex inp.PairIndex = true ∨ l.CheckAmount inp.AssetAmount = true →
      (logic.GetSwapAmount l inp).calls = []) := by
  unfold logic.GetSwapAmount
  by_cases hp : l.CheckPairIndex inp.PairIndex = true
  · simp [hp]
  by_cases ha : l.CheckAmount inp.AssetAmount = true
  · simp [hp, ha]
  simp only [hp, ha, if_false]
  cases hl : l.GetLatestLiquidityInfoForRead (logic.int64 inp.PairIndex) with
  | error e => simp
  | ok liquidity =>
    simp only [hl] at h
    by_cases hr : liquidity.AssetA = none ∨ liquidity.AssetA = some 0 ∨
        liquidity.AssetB = none ∨ liquidity.AssetB = some 0
    · simp [hr]
    cases hs : logic.SetString inp.AssetAmount with
    | none => simp [hr]
    | some d =>
      have hne : logic.uint32 liquidity.AssetAId ≠ inp.AssetId ∧
          logic.uint32 liquidity.AssetBId ≠ inp.AssetId := by
        rcases h with h | h | ⟨e, he⟩ | ⟨q, hq, hq2⟩ | h | ⟨q, hq, hq2⟩
        · exact absurd h hp
        · exact absurd h ha
        · cases he
        · cases hq
          exact absurd hq2 hr
        · rw [hs] at h
          cases h
        · cases hq
          exact hq2
      simp [hr, hne.1, hne.2]

/-- C10, run on a request whose amount `12a` is not a base-10 integer and on
one flagged by `CheckAmount`: both end with `ErrInvalidParam`, the first after
the lookup alone, the second without any call. -/
theorem getSwapAmount_guards_witness :
    ((logic.GetSwapAmount (logic.depsWith logic.pool12 (fun _ => (some 5, 2, none)))
        ⟨0, 1, "12a", true⟩).err ≠ none ∧
      (∀ args, logic.Call.computeDelta args ∉
        (logic.GetSwapAmount (logic.depsWith logic.pool12 (fun _ => (some 5, 2, none)))
          ⟨0, 1, "12a", true⟩).calls) ∧
      ((logic.depsWith logic.pool12 (fun _ => (some 5, 2, none))).CheckPairIndex 0 = true ∨
        (logic.depsWith logic.pool12 (fun _ => (some 5, 2, none))).CheckAmount "12a" = true →
        (logic.GetSwapAmount (logic.depsWith logic.pool12 (fun _ => (some 5, 2, none)))
          ⟨0, 1, "12a", true⟩).calls = [])) ∧
    (logic.GetSwapAmount
        ⟨fun _ => false, fun _ => true, fun _ => .ok logic.pool12, fun _ => (some 5, 2, none)⟩
        ⟨0, 1, "100", true⟩).calls = [] :=
  ⟨getSwapAmount_guards (logic.depsWith logic.pool12 (fun _ => (some 5, 2, none)))
      ⟨0, 1, "12a", true⟩ (Or.inr (Or.inr (Or.inr (Or.inr (Or.inl (by decide)))))),
   (getSwapAmount_guards
      ⟨fun _ => false, fun _ => true, fun _ => .ok logic.pool12, fun _ => (some 5, 2, none)⟩
      ⟨0, 1, "100", true⟩ (Or.inr (Or.inl rfl))).2.2 (Or.inr rfl)⟩
